import Mathlib

/-!
Shallow embedding of `sqs_list_filled_queues.py` (repository
`baztian/sqs-list-filled-queues`).

The script polls AWS SQS for queues that currently hold messages.  We embed its
pure computational content:

* the external SQS service is modelled as a list of `QueueState` records; a
  queue exists exactly when a record with its URL is present (the service's
  `get_queue_attributes` raises `QueueDoesNotExist` otherwise);
* Python non-negative integers become `Nat`; `str(n)` becomes `natStr`;
* Python strings are compared and split through their character lists
  (`String.data`), matching CPython's code-point semantics for the ASCII data
  the script handles;
* thread-pool completion order in `get_queue_infos` is non-deterministic in the
  source; we model the collected results in submission order.  Every claim we
  prove about the collection is order-insensitive (membership, emptiness), so
  this is faithful;
* terminal control (ANSI clear-line, progress overwrites) carries no data and
  is omitted from the traces; the printed payload lines are kept.
-/

/-- Decimal digit characters of `n` (most significant first), with explicit
fuel so that the definition is structural and kernel-reducible.  Fuel
`n + 1` always suffices (`n < 10 ^ (n + 1)`). -/
def digits10Go : Nat → Nat → List Char
  | 0, _ => []
  | fuel + 1, n =>
    if n < 10 then [Char.ofNat (48 + n)]
    else digits10Go fuel (n / 10) ++ [Char.ofNat (48 + n % 10)]

/-- Embedding of Python `str(n)` for a non-negative integer `n`. -/
def natStr (n : Nat) : String := ⟨digits10Go (n + 1) n⟩

/-- Number of characters of `str(n)`. -/
def natLen (n : Nat) : Nat := (natStr n).length

/-- Embedding of Python `max(...)` over a (nonempty) list of naturals; the `0`
seed is absorbed by any nonempty list of naturals. -/
def listMax (l : List Nat) : Nat := l.foldl Nat.max 0

/-- Split a character list on a separator, Python `s.split(sep)` style: the
result is always nonempty and empty segments are kept. -/
def splitOnChar (sep : Char) (cs : List Char) : List (List Char) :=
  match cs with
  | [] => [[]]
  | c :: rest =>
    let r := splitOnChar sep rest
    if c = sep then [] :: r
    else
      match r with
      | [] => [[c]]
      | seg :: segs => (c :: seg) :: segs

/-- Embedding of Python `url.split('/')[-1]`: the last path segment of a queue
URL, i.e. the queue's short display name. -/
def lastSegment (url : String) : String :=
  ⟨(splitOnChar '/' url.data).getLastD []⟩

/-- State of one queue on the service side: its URL, the
`ApproximateNumberOfMessages` attribute and the
`ApproximateNumberOfMessagesNotVisible` attribute. -/
structure QueueState where
  url : String
  visible : Nat
  notVisible : Nat
deriving DecidableEq, Repr

/-- The `AttributeNames` list built at the top of `check_queue`: the visible
count always, the not-visible (in-flight) count only when requested. -/
def attribute_names (include_in_flight : Bool) : List String :=
  ["ApproximateNumberOfMessages"] ++
    (if include_in_flight then ["ApproximateNumberOfMessagesNotVisible"] else [])

/-- Embedding of `check_queue(queue_url, include_in_flight)`.  A missing
record models the service raising `QueueDoesNotExist`, which the source
catches and turns into `None`.  Otherwise the source parses the counts,
defaults the in-flight count to `0` unless requested, and returns the triple
`(message_count, in_flight_count, queue_url)` only when the total is
non-zero (Python truthiness of `total_count`). -/
def check_queue (service : List QueueState) (queue_url : String)
    (include_in_flight : Bool) : Option (Nat × Nat × String) :=
  match service.find? (fun q => q.url == queue_url) with
  | none => none
  | some q =>
    let message_count := q.visible
    let in_flight_count := if include_in_flight then q.notVisible else 0
    let total_count := message_count + in_flight_count
    if total_count ≠ 0 then some (message_count, in_flight_count, queue_url)
    else none

/-- Embedding of `get_queue_infos(queue_urls, workers, include_in_flight)`:
fan out `check_queue` over all URLs and keep the non-`None` results (Python
`if result:` on a 3-tuple is exactly non-`None`).  The `workers` bound only
affects scheduling, not the collected set; completion order is modelled as
submission order (see the header note). -/
def get_queue_infos (service : List QueueState) (queue_urls : List String)
    (workers : Nat) (include_in_flight : Bool) : List (Nat × Nat × String) :=
  queue_urls.filterMap fun url => check_queue service url include_in_flight

/-! ## Pattern filter -/

/-- Python truthiness of the `pattern` argument (`if not pattern`): `None` and
the empty string are falsy. -/
def patternTruthy : Option String → Bool
  | none => false
  | some s => s != ""

/-- Regex metacharacters of Python `re`.  Patterns containing any of these
(beyond a single leading anchor) are outside the literal fragment we model. -/
def metaChars : List Char :=
  ['.', '^', '$', '*', '+', '?', '[', ']', '(', ')', '|', '\\',
   Char.ofNat 123, Char.ofNat 125]

/-- A compiled pattern of the modelled fragment of Python regular
expressions: an optional leading start-of-string anchor followed by literal
characters, compiled with `re.IGNORECASE`. -/
structure CompiledPattern where
  anchored : Bool
  lits : List Char
deriving DecidableEq, Repr

/-- Compile a pattern string of the literal fragment: a leading `^` anchors
at the start of the name; every remaining character must be a literal.
`none` means the pattern falls outside the modelled fragment. -/
def parsePattern (s : String) : Option CompiledPattern :=
  match s.data with
  | '^' :: rest =>
    if rest.all (fun c => !(metaChars.contains c)) then some ⟨true, rest⟩
    else none
  | cs =>
    if cs.all (fun c => !(metaChars.contains c)) then some ⟨false, cs⟩
    else none

/-- Case-insensitive character comparison, as compiling with `re.IGNORECASE`
does for ASCII. -/
def ciEqChar (a b : Char) : Bool := a.toLower == b.toLower

/-- Do the pattern literals match at the very start of the text,
case-insensitively? -/
def matchesAt : List Char → List Char → Bool
  | [], _ => true
  | _ :: _, [] => false
  | p :: ps, t :: ts => ciEqChar p t && matchesAt ps ts

/-- Python `regex.search(name)` semantics for the literal fragment: an
anchored pattern must match a prefix of the name; an unanchored pattern may
match at any position. -/
def searchCI (p : CompiledPattern) (name : List Char) : Bool :=
  if p.anchored then matchesAt p.lits name
  else name.tails.any (matchesAt p.lits)

/-- The compile step of `filter_queues_by_pattern` for the modelled fragment:
`re.compile(pattern, re.IGNORECASE)` followed by `regex.search` on a queue
name.  Patterns outside the fragment are reported as errors (the concrete
invalid patterns we use, such as a lone `[`, are indeed `re.error`s in
Python). -/
def compileFragment (s : String) : Except String (String → Bool) :=
  match parsePattern s with
  | some p => .ok (fun name => searchCI p name.data)
  | none => .error "unbalanced or unsupported construct"

/-- Embedding of `filter_queues_by_pattern(queue_urls, pattern)`.  The
compile step is a parameter so that claims about `main` can treat regex
validity abstractly; `.error e` models `re.error` being caught, the error
being printed and `sys.exit(1)`.  On success the source keeps exactly the
URLs whose final path segment the compiled regex `search`-matches. -/
def filter_queues_by_pattern (compile : String → Except String (String → Bool))
    (queue_urls : List String) (pattern : Option String) :
    Except String (List String) :=
  if patternTruthy pattern = false then .ok queue_urls
  else
    match compile (pattern.getD "") with
    | .error e => .error e
    | .ok regex => .ok (queue_urls.filter fun url => regex (lastSegment url))

/-! ## Result presenter -/

/-- ANSI bold. -/
def BOLD : String := "\x1b[1m"

/-- ANSI green. -/
def GREEN : String := "\x1b[92m"

/-- ANSI reset. -/
def RESET : String := "\x1b[0m"

/-- One element of `displayable_results` inside `display_results`: the tuple
`(base_name, message_count, in_flight_count, total_count, link)`. -/
structure DisplayTuple where
  base_name : String
  message_count : Nat
  in_flight_count : Nat
  total_count : Nat
  link : String
deriving DecidableEq, Repr

/-- Percent-encode one character as `urllib.parse.quote` does with
`safe=''`: ASCII letters, digits and `_.-~` pass through, everything else
becomes `%HH` (we model the single-byte/ASCII case the script handles). -/
def quoteChar (c : Char) : List Char :=
  if c.isAlphanum || c = '_' || c = '.' || c = '-' || c = '~' then [c]
  else
    let hexDigit := fun (n : Nat) => Char.ofNat (if n < 10 then 48 + n else 55 + n)
    ['%', hexDigit (c.toNat / 16 % 16), hexDigit (c.toNat % 16)]

/-- Embedding of `urllib.parse.quote(queue_url, safe='')`. -/
def urlQuote (s : String) : String := ⟨(s.data.map quoteChar).flatten⟩

/-- The base console link `display_results` builds for the active region. -/
def consoleLink (region : String) : String :=
  "https://console.aws.amazon.com/sqs/v2/home?region=" ++ region

/-- The `displayable_results` list built by `display_results`: per result
tuple, derive the short name, the deep link and the total count. -/
def displayable_results (region : String)
    (results : List (Nat × Nat × String)) : List DisplayTuple :=
  results.map fun r =>
    let message_count := r.1
    let in_flight_count := r.2.1
    let queue_url := r.2.2
    let base_name := lastSegment queue_url
    let link := consoleLink region ++ "#/queues/" ++ urlQuote queue_url
    let total_count := message_count + in_flight_count
    ⟨base_name, message_count, in_flight_count, total_count, link⟩

/-- Lexicographic `<=` on character lists by code point — CPython's string
comparison for the ASCII names the script handles. -/
def strLeB : List Char → List Char → Bool
  | [], _ => true
  | _ :: _, [] => false
  | a :: as, b :: bs =>
    if a.toNat < b.toNat then true
    else if b.toNat < a.toNat then false
    else strLeB as bs

/-- The sort key order of `display_results`: Python `sorted` with key
`(-total_count, base_name)` puts `a` no later than `b` exactly when `b`'s
total is smaller, or the totals tie and `a`'s name is no greater. -/
def rowLe (a b : DisplayTuple) : Prop :=
  b.total_count < a.total_count ∨
    (a.total_count = b.total_count ∧
      strLeB a.base_name.data b.base_name.data = true)

instance : DecidableRel rowLe := fun a b => by
  unfold rowLe; infer_instance

/-- Embedding of `sorted(displayable_results, key=lambda x: (-x[3], x[0]))`:
a stable sort by descending total count, ties broken by ascending name. -/
def sorted_display_results (region : String)
    (results : List (Nat × Nat × String)) : List DisplayTuple :=
  List.insertionSort rowLe (displayable_results region results)

/-- The width `max_base_name_length`: maximum name length over the rows. -/
def max_base_name_length (rows : List DisplayTuple) : Nat :=
  listMax (rows.map fun t => t.base_name.length)

/-- The width `max_message_count_length`: `len(str(max(counts)))`. -/
def max_message_count_length (rows : List DisplayTuple) : Nat :=
  (natStr (listMax (rows.map fun t => t.message_count))).length

/-- The width `max_in_flight_length`: `len(str(max(counts)))` when in-flight
counts are shown, `0` otherwise. -/
def max_in_flight_length (rows : List DisplayTuple)
    (include_in_flight : Bool) : Nat :=
  if include_in_flight then
    (natStr (listMax (rows.map fun t => t.in_flight_count))).length
  else 0

/-- The width `max_total_length`: `len(str(max(totals)))`. -/
def max_total_length (rows : List DisplayTuple) : Nat :=
  (natStr (listMax (rows.map fun t => t.total_count))).length

/-- Embedding of Python `s.ljust(w)`. -/
def ljust (s : String) (w : Nat) : String :=
  s ++ ⟨List.replicate (w - s.length) ' '⟩

/-- Embedding of Python `s.rjust(w)`. -/
def rjust (s : String) (w : Nat) : String :=
  (⟨List.replicate (w - s.length) ' '⟩ : String) ++ s

/-- One printed row of `display_results` (the two physical lines the single
`print` call emits: the padded columns, then the indented deep link). -/
def renderRow (include_in_flight : Bool) (name_w msg_w fl_w tot_w : Nat)
    (t : DisplayTuple) : String :=
  let display_name := ljust t.base_name name_w
  let display_count := rjust (natStr t.message_count) msg_w
  if include_in_flight then
    BOLD ++ display_name ++ RESET ++ ": " ++ GREEN ++ display_count ++
      " msgs" ++ RESET ++ ", " ++ GREEN ++
      rjust (natStr t.in_flight_count) fl_w ++ " in-flight" ++ RESET ++
      ", " ++ GREEN ++ rjust (natStr t.total_count) tot_w ++ " total" ++
      RESET ++ "\n    " ++ t.link
  else
    BOLD ++ display_name ++ RESET ++ ": " ++ GREEN ++ display_count ++
      " msgs" ++ RESET ++ "\n    " ++ t.link

/-- Embedding of `display_results(results, include_in_flight)`: the list of
printed chunks (terminal clear-line control is omitted).  Empty results
print the "no messages" banner; otherwise each sorted row is printed with
the column widths computed over all rows. -/
def display_results (region : String) (results : List (Nat × Nat × String))
    (include_in_flight : Bool) : List String :=
  let rows := sorted_display_results region results
  if results.isEmpty then
    [BOLD ++ "No messages found in any queue." ++ RESET]
  else
    rows.map (renderRow include_in_flight (max_base_name_length rows)
      (max_message_count_length rows) (max_in_flight_length rows include_in_flight)
      (max_total_length rows))

/-! ## Countdown -/

/-- How a run of `countdown(duration)` ends: `refresh` models `return True`
(the refresh key), `quitted` models `quit()` (process exit 0 on the quit
key), `finished` models falling out of the loop and `return False`. -/
inductive CountdownOutcome
  | refresh
  | quitted
  | finished
deriving DecidableEq, Repr

/-- Embedding of the `for i in range(duration, 0, -1)` loop of `countdown`.
The input list holds, per one-second tick, the keypress `select` would
deliver within that second (`none`: the second elapses silently).  The
returned `Nat` counts the ticks actually performed, i.e. how many times the
loop waited on (and possibly read) standard input.  The read key is
lowercased before comparison; an unrecognized key just continues the loop. -/
def countdownGo : Nat → List (Option Char) → CountdownOutcome × Nat
  | 0, _ => (.finished, 0)
  | n + 1, inputs =>
    match inputs with
    | [] =>
      let r := countdownGo n []
      (r.1, r.2 + 1)
    | none :: rest =>
      let r := countdownGo n rest
      (r.1, r.2 + 1)
    | some c :: rest =>
      if c.toLower == 'r' then (.refresh, 1)
      else if c.toLower == 'q' then (.quitted, 1)
      else
        let r := countdownGo n rest
        (r.1, r.2 + 1)

/-- Embedding of `countdown(duration)`.  `duration` is the Python `int` from
`--watch`; `range(duration, 0, -1)` performs `max(duration, 0)` iterations,
which is `Int.toNat`. -/
def countdown (duration : Int) (inputs : List (Option Char)) :
    CountdownOutcome × Nat :=
  countdownGo duration.toNat inputs

/-- Does the `while True` loop of `main` run another poll cycle after
`countdown` ends this way?  `return True` hits the `continue`, `return
False` falls through to the end of the loop body — both repeat; only
`quit()` leaves the process. -/
def watchLoopContinues : CountdownOutcome → Bool
  | .quitted => false
  | _ => true

/-! ## The `main` entry point -/

/-- Externally visible steps of one run of `main`, in order: the
`list_queues` network call, each `get_queue_attributes` network call (with
the attribute names requested), each printed payload, and the final
rendering. -/
inductive Event
  | listQueues
  | getQueueAttributes (url : String) (attrs : List String)
  | printLine (s : String)
  | display (chunks : List String)
deriving DecidableEq, Repr

/-- How far the embedding follows `main`: either the process exited with the
given status (a `return` from `main` exits the interpreter with status 0),
or it entered the interactive `while True` watch loop. -/
inductive MainOutcome
  | exited (code : Nat)
  | enteredWatchLoop
deriving DecidableEq, Repr

/-- The parsed command-line arguments of `main`. -/
structure Args where
  watch : Option Int
  workers : Nat
  include_in_flight : Bool
  pattern : Option String

/-- A single apostrophe, for reproducing the quoted pattern in messages. -/
def apos : String := ⟨[Char.ofNat 39]⟩

/-- The message `filter_queues_by_pattern` prints for an invalid pattern. -/
def invalidPatternMessage (pattern e : String) : String :=
  "Error: Invalid regex pattern " ++ apos ++ pattern ++ apos ++ ": " ++ e

/-- The message `main` prints after filtering. -/
def filteredMessage (original_count filtered_count : Nat) (pattern : String) :
    String :=
  "Filtered " ++ natStr original_count ++ " queues to " ++
    natStr filtered_count ++ " matching pattern " ++ apos ++ pattern ++ apos

/-- The network calls `get_queue_infos` performs: one
`get_queue_attributes` per submitted URL (also for queues that turn out not
to exist — the call is what raises `QueueDoesNotExist`). -/
def get_queue_infos_events (queue_urls : List String)
    (include_in_flight : Bool) : List Event :=
  queue_urls.map fun url =>
    .getQueueAttributes url (attribute_names include_in_flight)

/-- The tail of `main` after the filtering block, starting at the
`if args.watch is None:` check: in non-watch mode poll once, render, and
exit 1 when any messages were found, 0 otherwise; in watch mode the
interactive loop begins. -/
def mainAfterFilter (args : Args) (service : List QueueState)
    (region : String) (queue_urls : List String) (ev : List Event) :
    List Event × MainOutcome :=
  match args.watch with
  | none =>
    let results :=
      get_queue_infos service queue_urls args.workers args.include_in_flight
    let ev' := ev ++ get_queue_infos_events queue_urls args.include_in_flight
      ++ [.display (display_results region results args.include_in_flight)]
    if results.isEmpty then (ev', .exited 0) else (ev', .exited 1)
  | some _ => (ev, .enteredWatchLoop)

/-- Embedding of `main()` up to the watch loop.  `compile` abstracts
`re.compile(pattern, re.IGNORECASE)`: `.error e` means the regex is invalid
(`re.error` raised with message `e`).  Note the order of effects in the
source: `sqs.list_queues()` runs first, and only then is the pattern
compiled inside `filter_queues_by_pattern`. -/
def mainRun (args : Args) (service : List QueueState) (region : String)
    (compile : String → Except String (String → Bool)) :
    List Event × MainOutcome :=
  let ev0 : List Event := [.printLine "Reading list of queues...", .listQueues]
  let queue_urls := service.map fun q => q.url
  if patternTruthy args.pattern then
    match filter_queues_by_pattern compile queue_urls args.pattern with
    | .error e =>
      (ev0 ++ [.printLine (invalidPatternMessage (args.pattern.getD "") e)],
        .exited 1)
    | .ok filtered =>
      mainAfterFilter args service region filtered
        (ev0 ++ [.printLine (filteredMessage queue_urls.length filtered.length
          (args.pattern.getD ""))])
  else
    mainAfterFilter args service region queue_urls ev0

/-! ## Helper lemmas -/

theorem digits10Go_congr : ∀ (f g n : Nat), 0 < f → 0 < g → n < 10 ^ f →
    n < 10 ^ g → digits10Go f n = digits10Go g n
  | 0, _, _, hf, _, _, _ => absurd hf (lt_irrefl 0)
  | _ + 1, 0, _, _, hg, _, _ => absurd hg (lt_irrefl 0)
  | f + 1, g + 1, n, _, _, hf, hg => by
    unfold digits10Go
    by_cases h : n < 10
    · simp [h]
    · have h10 : (10 : Nat) ≤ n := Nat.not_lt.mp h
      have hf' : 0 < f := by
        by_contra h0
        have : f = 0 := by omega
        subst this
        rw [pow_one] at hf
        omega
      have hg' : 0 < g := by
        by_contra h0
        have : g = 0 := by omega
        subst this
        rw [pow_one] at hg
        omega
      have hfd : n / 10 < 10 ^ f := by
        rw [Nat.div_lt_iff_lt_mul (by norm_num)]
        calc n < 10 ^ (f + 1) := hf
          _ = 10 ^ f * 10 := by rw [pow_succ]
      have hgd : n / 10 < 10 ^ g := by
        rw [Nat.div_lt_iff_lt_mul (by norm_num)]
        calc n < 10 ^ (g + 1) := hg
          _ = 10 ^ g * 10 := by rw [pow_succ]
      simp only [h, if_false]
      rw [digits10Go_congr f g (n / 10) hf' hg' hfd hgd]

theorem digits10Go_length_mono : ∀ (f m n : Nat), m ≤ n →
    (digits10Go f m).length ≤ (digits10Go f n).length
  | 0, _, _, _ => le_refl _
  | f + 1, m, n, hmn => by
    unfold digits10Go
    by_cases hn : n < 10
    · have hm : m < 10 := lt_of_le_of_lt hmn hn
      simp [hn, hm]
    · simp only [hn, if_false, List.length_append, List.length_singleton]
      by_cases hm : m < 10
      · simp only [hm, if_true, List.length_singleton]
        omega
      · simp only [hm, if_false, List.length_append, List.length_singleton]
        have := digits10Go_length_mono f (m / 10) (n / 10)
          (Nat.div_le_div_right hmn)
        omega

theorem natLen_eq_fuel (m n : Nat) (h : m ≤ n) :
    natLen m = (digits10Go (n + 1) m).length := by
  unfold natLen natStr
  show (digits10Go (m + 1) m).length = _
  rw [digits10Go_congr (m + 1) (n + 1) m (Nat.succ_pos m) (Nat.succ_pos n)
    (lt_of_lt_of_le (Nat.lt_pow_self (by norm_num) m)
      (Nat.pow_le_pow_right (by norm_num) (Nat.le_succ m)))
    (lt_of_le_of_lt h
      (lt_of_lt_of_le (Nat.lt_pow_self (by norm_num) n)
        (Nat.pow_le_pow_right (by norm_num) (Nat.le_succ n))))]

theorem natLen_mono {m n : Nat} (h : m ≤ n) : natLen m ≤ natLen n := by
  rw [natLen_eq_fuel m n h, natLen_eq_fuel n n (le_refl n)]
  exact digits10Go_length_mono (n + 1) m n h

theorem natLen_max (a b : Nat) :
    natLen (Nat.max a b) = Nat.max (natLen a) (natLen b) := by
  rcases le_total a b with h | h
  · rw [show Nat.max a b = b from max_eq_right h,
      show Nat.max (natLen a) (natLen b) = natLen b from
        max_eq_right (natLen_mono h)]
  · rw [show Nat.max a b = a from max_eq_left h,
      show Nat.max (natLen a) (natLen b) = natLen a from
        max_eq_left (natLen_mono h)]

theorem foldl_max_natLen : ∀ (l : List Nat) (a : Nat),
    natLen (l.foldl Nat.max a) = (l.map natLen).foldl Nat.max (natLen a)
  | [], _ => rfl
  | x :: l, a => by
    simp only [List.foldl_cons, List.map_cons]
    rw [foldl_max_natLen l (Nat.max a x), natLen_max]

theorem natLen_listMax (x : Nat) (l : List Nat) :
    natLen (listMax (x :: l)) = listMax ((x :: l).map natLen) := by
  unfold listMax
  simp only [List.foldl_cons, List.map_cons, Nat.zero_max]
  exact foldl_max_natLen l x

theorem le_foldl_max_init : ∀ (l : List Nat) (a : Nat), a ≤ l.foldl Nat.max a
  | [], _ => le_refl _
  | x :: l, a =>
    le_trans (Nat.le_max_left a x) (le_foldl_max_init l (Nat.max a x))

theorem le_foldl_max_of_mem : ∀ (l : List Nat) (a y : Nat), y ∈ l →
    y ≤ l.foldl Nat.max a
  | x :: l, a, y, h => by
    rcases List.mem_cons.mp h with rfl | h
    · exact le_trans (Nat.le_max_right a y) (le_foldl_max_init l (Nat.max a y))
    · exact le_foldl_max_of_mem l (Nat.max a x) y h

theorem le_listMax_of_mem {l : List Nat} {y : Nat} (h : y ∈ l) : y ≤ listMax l :=
  le_foldl_max_of_mem l 0 y h

theorem strLeB_total : ∀ a b : List Char, strLeB a b = true ∨ strLeB b a = true
  | [], _ => Or.inl rfl
  | _ :: _, [] => Or.inr rfl
  | a :: as, b :: bs => by
    rcases Nat.lt_trichotomy a.toNat b.toNat with h | h | h
    · left; simp [strLeB, h]
    · rcases strLeB_total as bs with ih | ih
      · left; simp [strLeB, h, ih]
      · right; simp [strLeB, h.symm, ih]
    · right; simp [strLeB, h]

theorem strLeB_trans : ∀ a b c : List Char, strLeB a b = true →
    strLeB b c = true → strLeB a c = true
  | [], _, _, _, _ => rfl
  | _ :: _, [], _, hab, _ => by simp [strLeB] at hab
  | _ :: _, _ :: _, [], _, hbc => by simp [strLeB] at hbc
  | a :: as, b :: bs, c :: cs, hab, hbc => by
    simp only [strLeB] at hab hbc ⊢
    rcases Nat.lt_trichotomy a.toNat b.toNat with h1 | h1 | h1
    · rcases Nat.lt_trichotomy b.toNat c.toNat with h2 | h2 | h2
      · simp [show a.toNat < c.toNat by omega]
      · simp [show a.toNat < c.toNat by omega]
      · simp [show ¬ b.toNat < c.toNat by omega,
          show c.toNat < b.toNat from h2] at hbc
    · have hab' : strLeB as bs = true := by
        simpa [show ¬ a.toNat < b.toNat by omega,
          show ¬ b.toNat < a.toNat by omega] using hab
      rcases Nat.lt_trichotomy b.toNat c.toNat with h2 | h2 | h2
      · simp [show a.toNat < c.toNat by omega]
      · have hbc' : strLeB bs cs = true := by
          simpa [show ¬ b.toNat < c.toNat by omega,
            show ¬ c.toNat < b.toNat by omega] using hbc
        simp [show ¬ a.toNat < c.toNat by omega,
          show ¬ c.toNat < a.toNat by omega, strLeB_trans as bs cs hab' hbc']
      · simp [show ¬ b.toNat < c.toNat by omega,
          show c.toNat < b.toNat from h2] at hbc
    · simp [show ¬ a.toNat < b.toNat by omega,
        show b.toNat < a.toNat from h1] at hab

instance : IsTotal DisplayTuple rowLe :=
  ⟨fun a b => by
    unfold rowLe
    rcases Nat.lt_trichotomy a.total_count b.total_count with h | h | h
    · exact Or.inr (Or.inl h)
    · rcases strLeB_total a.base_name.data b.base_name.data with hs | hs
      · exact Or.inl (Or.inr ⟨h, hs⟩)
      · exact Or.inr (Or.inr ⟨h.symm, hs⟩)
    · exact Or.inl (Or.inl h)⟩

instance : IsTrans DisplayTuple rowLe :=
  ⟨fun a b c hab hbc => by
    unfold rowLe at *
    rcases hab with h1 | ⟨h1, hs1⟩ <;> rcases hbc with h2 | ⟨h2, hs2⟩
    · exact Or.inl (by omega)
    · exact Or.inl (by omega)
    · exact Or.inl (by omega)
    · exact Or.inr ⟨h1.trans h2, strLeB_trans _ _ _ hs1 hs2⟩⟩

theorem ljust_length (s : String) (w : Nat) :
    (ljust s w).length = Nat.max s.length w := by
  unfold ljust
  rw [String.length_append]
  show s.length + (List.replicate (w - s.length) ' ').length = _
  rw [List.length_replicate]
  rcases le_total s.length w with h | h
  · rw [show Nat.max s.length w = w from max_eq_right h]
    omega
  · rw [show Nat.max s.length w = s.length from max_eq_left h]
    omega

theorem rjust_length (s : String) (w : Nat) :
    (rjust s w).length = Nat.max s.length w := by
  unfold rjust
  rw [String.length_append]
  show (List.replicate (w - s.length) ' ').length + s.length = _
  rw [List.length_replicate]
  rcases le_total s.length w with h | h
  · rw [show Nat.max s.length w = w from max_eq_right h]
    omega
  · rw [show Nat.max s.length w = s.length from max_eq_left h]
    omega

theorem check_queue_eq_some {service : List QueueState} {url : String}
    {b : Bool} {m f : Nat} {u : String} :
    check_queue service url b = some (m, f, u) ↔
      ∃ q, service.find? (fun x => x.url == url) = some q ∧ m = q.visible ∧
        f = (if b then q.notVisible else 0) ∧ u = url ∧ m + f ≠ 0 := by
  unfold check_queue
  cases hfind : service.find? (fun x => x.url == url) with
  | none => simp
  | some q =>
    dsimp only
    by_cases ht : q.visible + (if b then q.notVisible else 0) ≠ 0
    · rw [if_pos ht]
      simp only [Option.some.injEq, Prod.mk.injEq]
      constructor
      · rintro ⟨rfl, rfl, rfl⟩
        exact ⟨q, rfl, rfl, rfl, rfl, ht⟩
      · rintro ⟨q', hq', rfl, rfl, rfl, hne⟩
        cases hq'
        exact ⟨rfl, rfl, rfl⟩
    · rw [if_neg ht]
      constructor
      · rintro ⟨⟩
      · rintro ⟨q', hq', rfl, rfl, rfl, hne⟩
        cases hq'
        exact absurd hne ht

theorem get_queue_infos_mem {service : List QueueState}
    {queue_urls : List String} {workers : Nat} {b : Bool}
    {r : Nat × Nat × String} :
    r ∈ get_queue_infos service queue_urls workers b ↔
      ∃ url ∈ queue_urls, check_queue service url b = some r := by
  unfold get_queue_infos
  rw [List.mem_filterMap]

theorem sorted_display_results_length (region : String)
    (results : List (Nat × Nat × String)) :
    (sorted_display_results region results).length = results.length := by
  unfold sorted_display_results
  rw [(List.perm_insertionSort rowLe (displayable_results region results)).length_eq]
  unfold displayable_results
  rw [List.length_map]

theorem width_eq_max (g : DisplayTuple → Nat) (t : DisplayTuple)
    (ts : List DisplayTuple) :
    (natStr (listMax ((t :: ts).map g))).length =
      listMax ((t :: ts).map fun x => (natStr (g x)).length) := by
  have h := natLen_listMax (g t) (ts.map g)
  unfold natLen at h
  simp only [List.map_cons] at h ⊢
  rw [h, List.map_map]
  rfl

/-! ## Claims -/

/-- C1: every snapshot in the PollResult collected by `get_queue_infos` has
`message_count + in_flight_count > 0`; and `check_queue` returns `none` for
a queue whose fetched total is zero, so such a queue is never surfaced. -/
theorem c1_poll_result_totals_positive :
    (∀ (service : List QueueState) (queue_urls : List String) (workers : Nat)
      (b : Bool) (r : Nat × Nat × String),
      r ∈ get_queue_infos service queue_urls workers b → 0 < r.1 + r.2.1) ∧
    (∀ (service : List QueueState) (url : String) (b : Bool) (q : QueueState),
      service.find? (fun x => x.url == url) = some q →
      q.visible + (if b then q.notVisible else 0) = 0 →
      check_queue service url b = none) := by
  constructor
  · intro service qs workers b r hr
    obtain ⟨url, _, hc⟩ := get_queue_infos_mem.mp hr
    obtain ⟨m, f, u⟩ := r
    obtain ⟨q, _, rfl, rfl, rfl, hne⟩ := check_queue_eq_some.mp hc
    simpa using Nat.pos_of_ne_zero hne
  · intro service url b q hq hz
    unfold check_queue
    rw [hq]
    dsimp only
    rw [if_neg]
    omega

/-- Witness for C1 at concrete inputs: the snapshot `(2, 0, "a")` collected
from a service holding two messages on queue `a` has positive total, and a
queue with zero visible and zero in-flight messages is reported as `none`. -/
theorem c1_poll_result_totals_positive_witness :
    0 < ((2 : Nat), (0 : Nat), "a").1 + ((2 : Nat), (0 : Nat), "a").2.1 ∧
    check_queue [⟨"u", 0, 0⟩] "u" true = none :=
  ⟨c1_poll_result_totals_positive.1 [⟨"a", 2, 0⟩] ["a"] 4 false (2, 0, "a")
      (by decide),
    c1_poll_result_totals_positive.2 [⟨"u", 0, 0⟩] "u" true ⟨"u", 0, 0⟩
      (by decide) (by decide)⟩

/-- C2: the presenter's row order is the stable sort by descending
`total_count` with ties broken by ascending display name (`rowLe`), the
sorted rows are a permutation of the built rows, and on snapshots with
totals `[5, 5, 2]` and names `[b, a, c]` the rendered order is
`a(5), b(5), c(2)`. -/
theorem c2_display_sort_order :
    (∀ (region : String) (results : List (Nat × Nat × String)),
      List.Sorted rowLe (sorted_display_results region results) ∧
      (sorted_display_results region results).Perm
        (displayable_results region results)) ∧
    (sorted_display_results "r" [(5, 0, "b"), (5, 0, "a"), (2, 0, "c")]).map
      (fun t => (t.base_name, t.total_count)) =
      [("a", 5), ("b", 5), ("c", 2)] :=
  ⟨fun _ results =>
    ⟨List.sorted_insertionSort rowLe _, List.perm_insertionSort rowLe _⟩,
    by decide⟩

/-- C4: the filter is the identity for an absent or empty pattern; for a
compiled pattern of the modelled fragment it keeps exactly the URLs whose
short display name (last path segment) matches case-insensitively under
search semantics; and `^dlq` on `[dlq-orders, orders-dlq, DLQ-users]`
keeps `[dlq-orders, DLQ-users]`. -/
theorem c4_filter_pattern_semantics :
    (∀ (compile : String → Except String (String → Bool)) (urls : List String),
      filter_queues_by_pattern compile urls none = .ok urls ∧
      filter_queues_by_pattern compile urls (some "") = .ok urls) ∧
    (∀ (urls : List String) (s : String) (p : CompiledPattern),
      parsePattern s = some p → s ≠ "" →
      filter_queues_by_pattern compileFragment urls (some s) =
        .ok (urls.filter fun u => searchCI p (lastSegment u).data) ∧
      ∀ u, u ∈ urls.filter (fun u => searchCI p (lastSegment u).data) ↔
        u ∈ urls ∧ searchCI p (lastSegment u).data = true) ∧
    filter_queues_by_pattern compileFragment
      ["dlq-orders", "orders-dlq", "DLQ-users"] (some "^dlq") =
      .ok ["dlq-orders", "DLQ-users"] := by
  refine ⟨fun compile urls => ⟨rfl, rfl⟩, fun urls s p hp hs => ⟨?_, ?_⟩, rfl⟩
  · have htr : patternTruthy (some s) = true := by
      simp [patternTruthy, bne_iff_ne, hs]
    unfold filter_queues_by_pattern
    rw [htr]
    simp only [Bool.true_eq_false, if_false, Option.getD_some, compileFragment, hp]
  · intro u
    rw [List.mem_filter]

/-- Witness for C4: applying the exact-filtering part to the concrete
pattern `^dlq` and URL list of the claim. -/
theorem c4_filter_pattern_semantics_witness :
    filter_queues_by_pattern compileFragment
      ["dlq-orders", "orders-dlq", "DLQ-users"] (some "^dlq") =
      .ok (["dlq-orders", "orders-dlq", "DLQ-users"].filter fun u =>
        searchCI ⟨true, ['d', 'l', 'q']⟩ (lastSegment u).data) :=
  (c4_filter_pattern_semantics.2.1 ["dlq-orders", "orders-dlq", "DLQ-users"]
    "^dlq" ⟨true, ['d', 'l', 'q']⟩ (by decide) (by decide)).1

/-- C5: the in-flight attribute is requested exactly when `includeInFlight`
is true; a returned snapshot has `in_flight_count = 0` when the flag is off
and echoes the queried URL; every display row's `total_count` is
`message_count + in_flight_count`; and a queue with `visible = 3`,
`notVisible = 7` reports `(3, 0)` (total `3`) without the flag and
`(3, 7)` (total `10`) with it. -/
theorem c5_in_flight_inclusion :
    ("ApproximateNumberOfMessagesNotVisible" ∈ attribute_names true ∧
      "ApproximateNumberOfMessagesNotVisible" ∉ attribute_names false) ∧
    (∀ (service : List QueueState) (url : String) (b : Bool) (m f : Nat)
      (u : String), check_queue service url b = some (m, f, u) →
      (b = false → f = 0) ∧ u = url) ∧
    (∀ (region : String) (results : List (Nat × Nat × String))
      (t : DisplayTuple), t ∈ displayable_results region results →
      t.total_count = t.message_count + t.in_flight_count) ∧
    (check_queue [⟨"https://sqs.eu/1/orders", 3, 7⟩] "https://sqs.eu/1/orders"
        false = some (3, 0, "https://sqs.eu/1/orders") ∧ (3 : Nat) + 0 = 3) ∧
    (check_queue [⟨"https://sqs.eu/1/orders", 3, 7⟩] "https://sqs.eu/1/orders"
        true = some (3, 7, "https://sqs.eu/1/orders") ∧ (3 : Nat) + 7 = 10) := by
  refine ⟨⟨by decide, by decide⟩, ?_, ?_, ⟨by decide, by decide⟩,
    ⟨by decide, by decide⟩⟩
  · intro service url b m f u hc
    obtain ⟨q, _, _, hf, rfl, _⟩ := check_queue_eq_some.mp hc
    refine ⟨fun hb => ?_, rfl⟩
    subst hb
    simpa using hf
  · intro region results t ht
    obtain ⟨r, _, rfl⟩ := List.mem_map.mp ht
    rfl

/-- Witness for C5 at a concrete snapshot: applying the general part to the
fetch of a queue with 3 visible and 7 in-flight messages, flag off. -/
theorem c5_in_flight_inclusion_witness :
    (false = false → (0 : Nat) = 0) ∧ "https://sqs.eu/1/orders" = "https://sqs.eu/1/orders" :=
  c5_in_flight_inclusion.2.1 [⟨"https://sqs.eu/1/orders", 3, 7⟩]
    "https://sqs.eu/1/orders" false 3 0 "https://sqs.eu/1/orders" (by decide)

/-- C6: a queue the service does not know (attribute fetch raises
`QueueDoesNotExist`) yields `none` from `check_queue`, and no snapshot in
the PollResult carries its URL. -/
theorem c6_absent_queue_skipped :
    ∀ (service : List QueueState) (url : String) (b : Bool) (workers : Nat)
      (queue_urls : List String),
      service.find? (fun q => q.url == url) = none →
      check_queue service url b = none ∧
      ∀ r ∈ get_queue_infos service queue_urls workers b, r.2.2 ≠ url := by
  intro service url b workers qs hfind
  constructor
  · unfold check_queue
    rw [hfind]
  · intro r hr
    obtain ⟨u', _, hc⟩ := get_queue_infos_mem.mp hr
    obtain ⟨m, f, uu⟩ := r
    obtain ⟨q, hq, _, _, huu, _⟩ := check_queue_eq_some.mp hc
    intro hcontra
    have hu : u' = url := (huu.symm.trans hcontra)
    subst hu
    rw [hfind] at hq
    cases hq

/-- Witness for C6: a deleted queue `gone` among the listed URLs is skipped
while the run continues over the remaining queue. -/
theorem c6_absent_queue_skipped_witness :
    check_queue [⟨"a", 1, 0⟩] "gone" true = none ∧
    ∀ r ∈ get_queue_infos [⟨"a", 1, 0⟩] ["a", "gone"] 4 true, r.2.2 ≠ "gone" :=
  c6_absent_queue_skipped [⟨"a", 1, 0⟩] "gone" true 4 ["a", "gone"] (by decide)

/-- Counterexample to C3 as stated: with the invalid pattern `[` (a
`re.error` in Python), the run does exit with status 1, but the trace of
that very run already contains the `list_queues` network call — `main`
lists the queues before the pattern is ever compiled, so the process does
not terminate "before listing queues". -/
theorem c3_counterexample_lists_queues_first :
    (mainRun ⟨none, 4, false, some "["⟩ [⟨"https://sqs.eu/1/q", 5, 0⟩]
      "eu-central-1" compileFragment).2 = .exited 1 ∧
    Event.listQueues ∈ (mainRun ⟨none, 4, false, some "["⟩
      [⟨"https://sqs.eu/1/q", 5, 0⟩] "eu-central-1" compileFragment).1 := by
  constructor
  · rfl
  · decide

/-- C3 amended: if the configured pattern is truthy and invalid, `main`
reports the problem and exits with status 1 after the `list_queues` call
but before any `get_queue_attributes` call. -/
theorem c3_invalid_pattern_exits_before_fetch :
    ∀ (args : Args) (service : List QueueState) (region : String)
      (compile : String → Except String (String → Bool)) (e : String),
      patternTruthy args.pattern = true →
      compile (args.pattern.getD "") = .error e →
      (mainRun args service region compile).2 = .exited 1 ∧
      Event.printLine (invalidPatternMessage (args.pattern.getD "") e) ∈
        (mainRun args service region compile).1 ∧
      (∀ (url : String) (attrs : List String),
        Event.getQueueAttributes url attrs ∉ (mainRun args service region compile).1) ∧
      Event.listQueues ∈ (mainRun args service region compile).1 := by
  intro args service region compile e htr herr
  have hfil : filter_queues_by_pattern compile (service.map fun q => q.url)
      args.pattern = .error e := by
    unfold filter_queues_by_pattern
    rw [htr]
    simp only [Bool.true_eq_false, if_false, herr]
  have hmain : mainRun args service region compile =
      ([.printLine "Reading list of queues...", .listQueues,
        .printLine (invalidPatternMessage (args.pattern.getD "") e)],
        .exited 1) := by
    unfold mainRun
    rw [htr]
    simp only [if_true, hfil]
    rfl
  rw [hmain]
  refine ⟨rfl, by simp, ?_, by simp⟩
  intro url attrs
  simp

/-- Witness for the amended C3: the concrete invalid pattern `[` with one
queue listed. -/
theorem c3_invalid_pattern_exits_before_fetch_witness :
    (mainRun ⟨some 60, 4, true, some "["⟩ [⟨"https://sqs.eu/1/q", 5, 0⟩] "eu"
      compileFragment).2 = .exited 1 ∧
    Event.printLine (invalidPatternMessage "["
        "unbalanced or unsupported construct") ∈
      (mainRun ⟨some 60, 4, true, some "["⟩ [⟨"https://sqs.eu/1/q", 5, 0⟩] "eu"
        compileFragment).1 ∧
    (∀ (url : String) (attrs : List String),
      Event.getQueueAttributes url attrs ∉
        (mainRun ⟨some 60, 4, true, some "["⟩ [⟨"https://sqs.eu/1/q", 5, 0⟩]
          "eu" compileFragment).1) ∧
    Event.listQueues ∈ (mainRun ⟨some 60, 4, true, some "["⟩
      [⟨"https://sqs.eu/1/q", 5, 0⟩] "eu" compileFragment).1 :=
  c3_invalid_pattern_exits_before_fetch ⟨some 60, 4, true, some "["⟩
    [⟨"https://sqs.eu/1/q", 5, 0⟩] "eu" compileFragment
    "unbalanced or unsupported construct" (by decide) rfl

/-- The non-watch tail of `main`: it exits 1 exactly when the poll found
messages, 0 otherwise, and the rendered display is part of the trace. -/
theorem mainAfterFilter_non_watch (args : Args) (service : List QueueState)
    (region : String) (queue_urls : List String) (ev : List Event)
    (hw : args.watch = none) :
    (mainAfterFilter args service region queue_urls ev).2 =
      .exited (if get_queue_infos service queue_urls args.workers
        args.include_in_flight = [] then 0 else 1) ∧
    Event.display (display_results region
        (get_queue_infos service queue_urls args.workers args.include_in_flight)
        args.include_in_flight) ∈
      (mainAfterFilter args service region queue_urls ev).1 := by
  unfold mainAfterFilter
  rw [hw]
  by_cases h : get_queue_infos service queue_urls args.workers
      args.include_in_flight = []
  · rw [if_pos h]
    constructor
    · simp [List.isEmpty_iff, h]
    · simp [List.isEmpty_iff, h]
  · rw [if_neg h]
    constructor
    · simp [List.isEmpty_iff, h]
    · simp [List.isEmpty_iff, h]

/-- C7: in non-watch mode, after rendering, the process exits with status 1
when the PollResult is non-empty and 0 when it is empty — both for the
post-filter tail of `main` and for a full `main` run without a pattern. -/
theorem c7_non_watch_exit_code :
    (∀ (args : Args) (service : List QueueState) (region : String)
      (queue_urls : List String) (ev : List Event),
      args.watch = none →
      (mainAfterFilter args service region queue_urls ev).2 =
        .exited (if get_queue_infos service queue_urls args.workers
          args.include_in_flight = [] then 0 else 1) ∧
      Event.display (display_results region
          (get_queue_infos service queue_urls args.workers
            args.include_in_flight) args.include_in_flight) ∈
        (mainAfterFilter args service region queue_urls ev).1) ∧
    (∀ (args : Args) (service : List QueueState) (region : String)
      (compile : String → Except String (String → Bool)),
      args.watch = none → patternTruthy args.pattern = false →
      (mainRun args service region compile).2 =
        .exited (if get_queue_infos service (service.map fun q => q.url)
          args.workers args.include_in_flight = [] then 0 else 1)) := by
  constructor
  · intro args service region queue_urls ev hw
    exact mainAfterFilter_non_watch args service region queue_urls ev hw
  · intro args service region compile hw hp
    unfold mainRun
    rw [hp]
    simp only [Bool.false_eq_true, if_false]
    exact (mainAfterFilter_non_watch args service region _ _ hw).1

/-- Witness for C7: one queue with messages (exit 1) and the same service
with the message drained (exit 0). -/
theorem c7_non_watch_exit_code_witness :
    (mainRun ⟨none, 4, false, none⟩ [⟨"https://sqs.eu/1/q", 5, 0⟩] "eu"
      compileFragment).2 = .exited (if get_queue_infos
        [⟨"https://sqs.eu/1/q", 5, 0⟩]
        (([⟨"https://sqs.eu/1/q", 5, 0⟩] : List QueueState).map fun q => q.url)
        4 false = [] then 0 else 1) ∧
    (mainRun ⟨none, 4, false, none⟩ [⟨"https://sqs.eu/1/q", 0, 0⟩] "eu"
      compileFragment).2 = .exited (if get_queue_infos
        [⟨"https://sqs.eu/1/q", 0, 0⟩]
        (([⟨"https://sqs.eu/1/q", 0, 0⟩] : List QueueState).map fun q => q.url)
        4 false = [] then 0 else 1) :=
  ⟨c7_non_watch_exit_code.2 ⟨none, 4, false, none⟩ [⟨"https://sqs.eu/1/q", 5, 0⟩]
      "eu" compileFragment rfl (by decide),
    c7_non_watch_exit_code.2 ⟨none, 4, false, none⟩ [⟨"https://sqs.eu/1/q", 0, 0⟩]
      "eu" compileFragment rfl (by decide)⟩

/-- C9: the countdown lowercases the read key before comparing, so both
cases of the refresh key return `refresh` after one tick and both cases of
the quit key exit, while any other key leaves the countdown running. -/
theorem c9_keypress_case_insensitive :
    ∀ (d : Int) (c : Char) (rest : List (Option Char)),
      0 < d →
      (c.toLower = 'r' → countdown d (some c :: rest) = (.refresh, 1)) ∧
      (c.toLower = 'q' → countdown d (some c :: rest) = (.quitted, 1)) ∧
      (c.toLower ≠ 'r' → c.toLower ≠ 'q' →
        (countdown d (some c :: rest)).1 = (countdownGo (d.toNat - 1) rest).1) := by
  intro d c rest hd
  obtain ⟨n, hn⟩ : ∃ n, d.toNat = n + 1 := ⟨d.toNat - 1, by omega⟩
  unfold countdown
  rw [hn]
  refine ⟨fun hr => ?_, fun hq => ?_, fun hr hq => ?_⟩
  · simp only [countdownGo]
    rw [show (c.toLower == 'r') = true from beq_iff_eq.mpr hr]
    simp
  · simp only [countdownGo]
    rw [show (c.toLower == 'r') = false from beq_eq_false_iff_ne.mpr
        (by rw [hq]; decide),
      show (c.toLower == 'q') = true from beq_iff_eq.mpr hq]
    simp
  · simp only [countdownGo]
    rw [show (c.toLower == 'r') = false from beq_eq_false_iff_ne.mpr hr,
      show (c.toLower == 'q') = false from beq_eq_false_iff_ne.mpr hq]
    simp

/-- Witness for C9: uppercase `R` refreshes, uppercase `Q` quits, and `x`
lets the countdown run on. -/
theorem c9_keypress_case_insensitive_witness :
    countdown 3 [some 'R'] = (.refresh, 1) ∧
    countdown 3 [some 'Q'] = (.quitted, 1) ∧
    (countdown 3 [some 'x']).1 = (countdownGo ((3 : Int).toNat - 1) []).1 :=
  ⟨(c9_keypress_case_insensitive 3 'R' [] (by decide)).1 (by decide),
    (c9_keypress_case_insensitive 3 'Q' [] (by decide)).2.1 (by decide),
    (c9_keypress_case_insensitive 3 'x' [] (by decide)).2.2 (by decide) (by decide)⟩

/-- C10: a non-positive watch interval makes `countdown` perform no tick at
all — it never waits on or reads standard input (tick count 0), returns
`False` (`finished`), and the watch loop re-polls immediately. -/
theorem c10_nonpositive_duration_no_ticks :
    ∀ (d : Int), d ≤ 0 → ∀ (inputs : List (Option Char)),
      countdown d inputs = (.finished, 0) ∧
      watchLoopContinues (countdown d inputs).1 = true := by
  intro d hd inputs
  have h0 : d.toNat = 0 := Int.toNat_eq_zero.mpr hd
  unfold countdown
  rw [h0]
  exact ⟨rfl, rfl⟩

/-- Witness for C10: duration `-5` (and pending input that is never read)
still finishes instantly with zero ticks. -/
theorem c10_nonpositive_duration_no_ticks_witness :
    countdown (-5) [some 'q'] = (.finished, 0) ∧
    watchLoopContinues (countdown (-5) [some 'q']).1 = true :=
  c10_nonpositive_duration_no_ticks (-5) (by decide) [some 'q']

/-- C8: for a non-empty PollResult the presenter's rows are non-empty, each
column width equals the maximum string length of that field across all rows
(for the numeric columns the source computes `len(str(max(values)))`, which
agrees because decimal length is monotone), and justifying each field to
its column width yields strings of exactly that width — the name
left-justified, the numeric fields right-justified. -/
theorem c8_column_widths :
    (∀ (region : String) (results : List (Nat × Nat × String)),
      results ≠ [] → sorted_display_results region results ≠ []) ∧
    ∀ (rows : List DisplayTuple), rows ≠ [] →
      (max_base_name_length rows =
        listMax (rows.map fun t => t.base_name.length)) ∧
      (max_message_count_length rows =
        listMax (rows.map fun t => (natStr t.message_count).length)) ∧
      (max_in_flight_length rows true =
        listMax (rows.map fun t => (natStr t.in_flight_count).length)) ∧
      (max_total_length rows =
        listMax (rows.map fun t => (natStr t.total_count).length)) ∧
      ∀ t ∈ rows,
        (ljust t.base_name (max_base_name_length rows)).length =
          max_base_name_length rows ∧
        (rjust (natStr t.message_count) (max_message_count_length rows)).length =
          max_message_count_length rows ∧
        (rjust (natStr t.in_flight_count) (max_in_flight_length rows true)).length =
          max_in_flight_length rows true ∧
        (rjust (natStr t.total_count) (max_total_length rows)).length =
          max_total_length rows := by
  constructor
  · intro region results h
    intro hc
    apply h
    have := sorted_display_results_length region results
    rw [hc] at this
    exact List.length_eq_zero.mp this.symm
  · intro rows hne
    obtain ⟨t0, ts, rfl⟩ := List.exists_cons_of_ne_nil hne
    have hmsg : max_message_count_length (t0 :: ts) =
        listMax ((t0 :: ts).map fun t => (natStr t.message_count).length) :=
      width_eq_max (fun t => t.message_count) t0 ts
    have hfl : max_in_flight_length (t0 :: ts) true =
        listMax ((t0 :: ts).map fun t => (natStr t.in_flight_count).length) :=
      width_eq_max (fun t => t.in_flight_count) t0 ts
    have htot : max_total_length (t0 :: ts) =
        listMax ((t0 :: ts).map fun t => (natStr t.total_count).length) :=
      width_eq_max (fun t => t.total_count) t0 ts
    refine ⟨rfl, hmsg, hfl, htot, ?_⟩
    intro t ht
    refine ⟨?_, ?_, ?_, ?_⟩
    · have hle : t.base_name.length ≤ max_base_name_length (t0 :: ts) :=
        le_listMax_of_mem (List.mem_map_of_mem _ ht)
      rw [ljust_length]
      exact max_eq_right hle
    · have hle : (natStr t.message_count).length ≤
          max_message_count_length (t0 :: ts) := by
        rw [hmsg]
        exact le_listMax_of_mem (List.mem_map_of_mem _ ht)
      rw [rjust_length]
      exact max_eq_right hle
    · have hle : (natStr t.in_flight_count).length ≤
          max_in_flight_length (t0 :: ts) true := by
        rw [hfl]
        exact le_listMax_of_mem (List.mem_map_of_mem _ ht)
      rw [rjust_length]
      exact max_eq_right hle
    · have hle : (natStr t.total_count).length ≤
          max_total_length (t0 :: ts) := by
        rw [htot]
        exact le_listMax_of_mem (List.mem_map_of_mem _ ht)
      rw [rjust_length]
      exact max_eq_right hle

/-- Witness for C8: two rows with counts of different digit lengths; the
message-count column width is the maximum rendered length, 2. -/
theorem c8_column_widths_witness :
    max_message_count_length
      (sorted_display_results "eu" [(5, 0, "a"), (10, 2, "bb")]) =
      listMax ((sorted_display_results "eu" [(5, 0, "a"), (10, 2, "bb")]).map
        fun t => (natStr t.message_count).length) :=
  (c8_column_widths.2 (sorted_display_results "eu" [(5, 0, "a"), (10, 2, "bb")])
    (c8_column_widths.1 "eu" [(5, 0, "a"), (10, 2, "bb")] (by decide))).2.1
